import Mathlib

/-!
Verification of ChatGo (tk103331/ChatGo) against its specification.

The Go sources are shallowly embedded as pure Lean functions:

* `src/internal/llm/client.go` — the streaming chat client (`Client.Chat`,
  `Client.chatWithStream`, `Client.chatWithoutStream`).  A model stream is
  embedded as the list of results its `Recv` calls produce; the `onChunk`
  callback is embedded as the list of fragments, in delivery order, that
  the loop passes to it.
* `src/internal/mcp/manager.go` — the MCP connection manager.  The status
  map guarded by the readers-writer lock is a function from server names to
  statuses; the external mcp-go client is abstracted by an outcome record
  saying which of the slow sub-steps (client creation, transport start,
  protocol handshake, tool listing) succeed, and the side effects on the
  external client are recorded as an action trace.  The lock discipline of
  each operation is embedded separately as the sequence of lock events the
  Go code performs, so blocking behaviour can be examined.
* `src/internal/config/config.go` — built-in tool validation
  (`GetRequiredConfigFields`, `ValidateBuiltinToolConfig`), with Go's
  `strings.TrimSpace` reproduced including its Unicode white-space set.
* `src/pkg/models/conversation.go` — conversation persistence
  (`LoadConversation`, `SaveConversation`); the JSON file store is a
  function from conversation ids to records (the struct is flat, so
  marshal/unmarshal round-trips and is embedded as the identity).
* the react agent client (`NewReactClient`,
  `NewReactClientWithEinoTools`, `ReactClient.chatWithoutStream`) whose
  source is quoted in `src/README.md`; the bounded react loop itself lives
  in the external eino framework and is modelled from the spec where a
  claim needs it.
-/

namespace ChatGo

/-! ## LLM client, src/internal/llm/client.go -/

/-- The response struct returned by chat calls (`ChatResponse` in
`client.go`): the full assistant content and the `Done` flag.  Both
`chatWithStream` and `chatWithoutStream` construct it with `Done: true`;
the struct has no other field, in particular no truncation marker. -/
structure ChatResponse where
  content : String
  done : Bool
deriving DecidableEq

/-- One result of `streamReader.Recv()` in `chatWithStream`: a chunk
(possibly the nil pointer), the `io.EOF` sentinel ending the stream, or
another receive error. -/
inductive RecvEvent where
  | chunk (c : Option String)
  | eofEv
  | errEv (msg : String)
deriving DecidableEq

/-- The receive loop of `Client.chatWithStream` (client.go lines 177-190):
accumulate `fullContent`, deliver every non-nil, non-empty chunk to
`onChunk`, stop at EOF, abort the call on any other receive error.  The
result is the returned `(*ChatResponse, error)` (`none` standing for a
non-nil error) paired with the fragments delivered to `onChunk`, in
delivery order.  An exhausted event list is read as EOF. -/
def chatStreamLoop : List RecvEvent → String → List String → Option ChatResponse × List String
  | [], acc, delivered => (some ⟨acc, true⟩, delivered)
  | RecvEvent.eofEv :: _, acc, delivered => (some ⟨acc, true⟩, delivered)
  | RecvEvent.errEv _ :: _, _, delivered => (none, delivered)
  | RecvEvent.chunk none :: rest, acc, delivered => chatStreamLoop rest acc delivered
  | RecvEvent.chunk (some c) :: rest, acc, delivered =>
      if c = "" then chatStreamLoop rest acc delivered
      else chatStreamLoop rest (acc ++ c) (delivered ++ [c])

/-- `Client.chatWithStream`: run the receive loop with empty accumulator
and no fragments delivered yet. -/
def chatWithStream (events : List RecvEvent) : Option ChatResponse × List String :=
  chatStreamLoop events "" []

/-- `Client.chatWithoutStream`: wrap the result of `Generate` (`none` for
a generation error, `some r` for a possibly-nil response message) in a
`ChatResponse` with `Done: true`; no fragment is ever delivered. -/
def chatWithoutStream (generated : Except String (Option String)) :
    Option ChatResponse × List String :=
  match generated with
  | Except.error _ => (none, [])
  | Except.ok r => (some ⟨r.getD "", true⟩, [])

/-- `Client.Chat`: dispatch on whether an `onChunk` callback was supplied
(client.go lines 155-161): non-nil callback uses the streaming path,
otherwise the blocking `Generate` path. -/
def Chat (hasOnChunk : Bool) (events : List RecvEvent)
    (generated : Except String (Option String)) : Option ChatResponse × List String :=
  if hasOnChunk then chatWithStream events else chatWithoutStream generated

theorem string_foldl_append (l : List String) :
    ∀ s : String, l.foldl (· ++ ·) s = s ++ String.join l := by
  induction l with
  | nil => intro s; simp [String.join]
  | cons a l ih =>
      intro s
      have h1 : (a :: l).foldl (· ++ ·) s = (s ++ a) ++ String.join l := by
        simpa using ih (s ++ a)
      have h2 : String.join (a :: l) = a ++ String.join l := by
        simpa [String.join] using ih a
      rw [h1, h2, String.append_assoc]

theorem string_join_cons (a : String) (l : List String) :
    String.join (a :: l) = a ++ String.join l := by
  simpa [String.join] using string_foldl_append l a

theorem chatStreamLoop_spec (events : List RecvEvent) :
    ∀ acc delivered res frags,
      chatStreamLoop events acc delivered = (some res, frags) →
      ∃ suffix, frags = delivered ++ suffix ∧ res.content = acc ++ String.join suffix ∧
        res.done = true := by
  induction events with
  | nil =>
      intro acc delivered res frags h
      rw [chatStreamLoop] at h
      obtain ⟨h1, h2⟩ := Prod.mk.injEq .. ▸ h
      refine ⟨[], by simp [h2], ?_, ?_⟩
      · cases Option.some.injEq .. ▸ h1; simp [String.join]
      · cases Option.some.injEq .. ▸ h1; rfl
  | cons ev rest ih =>
      intro acc delivered res frags h
      match ev with
      | RecvEvent.eofEv =>
          rw [chatStreamLoop] at h
          obtain ⟨h1, h2⟩ := Prod.mk.injEq .. ▸ h
          refine ⟨[], by simp [h2], ?_, ?_⟩
          · cases Option.some.injEq .. ▸ h1; simp [String.join]
          · cases Option.some.injEq .. ▸ h1; rfl
      | RecvEvent.errEv m =>
          simp [chatStreamLoop] at h
      | RecvEvent.chunk none =>
          exact ih acc delivered res frags h
      | RecvEvent.chunk (some c) =>
          rw [chatStreamLoop] at h
          by_cases hc : c = ""
          · rw [if_pos hc] at h
            exact ih acc delivered res frags h
          · rw [if_neg hc] at h
            obtain ⟨suffix, hfr, hco, hdone⟩ := ih (acc ++ c) (delivered ++ [c]) res frags h
            refine ⟨c :: suffix, ?_, ?_, hdone⟩
            · simp [hfr]
            · rw [hco, string_join_cons, String.append_assoc]

/-- C5.  A streaming chat call (`Client.Chat` with a non-nil `onChunk`)
that returns without error delivers fragments whose concatenation, in
delivery order, is exactly the `Content` of the returned `ChatResponse`. -/
theorem Chat_stream_concat (events : List RecvEvent)
    (generated : Except String (Option String)) (res : ChatResponse) (frags : List String)
    (h : Chat true events generated = (some res, frags)) :
    String.join frags = res.content ∧ res.done = true := by
  have h' : chatStreamLoop events "" [] = (some res, frags) := h
  obtain ⟨suffix, hfr, hco, hdone⟩ := chatStreamLoop_spec events "" [] res frags h'
  subst hfr
  refine ⟨?_, hdone⟩
  rw [hco]
  simp

/-- Witness for C5 at a concrete stream: two content chunks, a nil chunk
and an empty chunk, then EOF. -/
theorem Chat_stream_concat_witness :
    String.join ["he", "llo"] = (ChatResponse.mk "hello" true).content ∧
      (ChatResponse.mk "hello" true).done = true :=
  Chat_stream_concat
    [RecvEvent.chunk (some "he"), RecvEvent.chunk none, RecvEvent.chunk (some ""),
      RecvEvent.chunk (some "llo"), RecvEvent.eofEv]
    (Except.ok none) ⟨"hello", true⟩ ["he", "llo"] (by decide)

/-! ## MCP connection manager, src/internal/mcp/manager.go -/

/-- A tool advertised by an MCP server (`MCPTool` in manager.go).  The
opaque JSON input schema the Go struct also carries plays no part in any
claim and is not modelled. -/
structure MCPTool where
  name : String
  description : String
deriving DecidableEq

/-- `MCPServerStatus` in manager.go: the per-server record the manager
stores, with the live mcp-go client handle abstracted to an identifier. -/
structure MCPServerStatus where
  name : String
  type : String
  status : String
  mcpError : Option String
  tools : List MCPTool
  client : Option Nat
deriving DecidableEq

/-- `config.MCPServer` (src/internal/config/config.go): the configuration
of one MCP server. -/
structure MCPServer where
  name : String
  type : String
  enabled : Bool
  command : String
  args : List String
  env : List (String × String)
  url : String
  headers : List (String × String)
  timeoutSeconds : Nat
deriving DecidableEq

/-- The outcome of the external mcp-go calls an `InitializeServer` run
performs: whether client creation, transport start, the protocol
handshake and the tool listing succeed, and the tools a successful
listing returns. -/
structure InitOutcome where
  createOk : Bool
  startOk : Bool
  handshakeOk : Bool
  listOk : Bool
  tools : List MCPTool
deriving DecidableEq

/-- A side effect performed on the external mcp-go client during manager
operations: creating it (spawning the process / building the network
client), starting its transport, the handshake, the tool listing, and
closing it. -/
inductive MCPAction where
  | createClient (id : Nat)
  | startClient (id : Nat)
  | handshakeCall (id : Nat)
  | listToolsCall (id : Nat)
  | closeClient (id : Nat)
deriving DecidableEq

/-- The manager's status map `Manager.servers`, guarded in Go by the
readers-writer lock `Manager.mu`. -/
def ManagerState : Type := String → Option MCPServerStatus

/-- A fresh manager (`NewManager`): an empty status map. -/
def emptyManager : ManagerState := fun _ => none

/-- `Manager.setStatus`: store a status under a name (manager.go lines
212-216; the lock events it performs are modelled separately). -/
def setStatus (st : ManagerState) (name : String) (s : MCPServerStatus) : ManagerState :=
  fun n => if n = name then some s else st n

/-- The shared tail of `InitializeServer` after the client exists and its
transport is up (manager.go lines 161-208): protocol handshake, tool
listing, and the final status; on handshake or listing failure the status
turns to error and `mcpClient.Close()` is called. -/
def handshakeAndList (status1 : MCPServerStatus) (out : InitOutcome) (fid : Nat)
    (acts : List MCPAction) : MCPServerStatus × List MCPAction :=
  if out.handshakeOk = false then
    ({ status1 with
        status := "error",
        mcpError := some "failed to initialize MCP connection" },
      acts ++ [MCPAction.handshakeCall fid, MCPAction.closeClient fid])
  else if out.listOk = false then
    ({ status1 with status := "error", mcpError := some "failed to get tools" },
      acts ++ [MCPAction.handshakeCall fid, MCPAction.listToolsCall fid,
        MCPAction.closeClient fid])
  else
    ({ status1 with status := "initialized", mcpError := none, tools := out.tools },
      acts ++ [MCPAction.handshakeCall fid, MCPAction.listToolsCall fid])

/-- The connection phase of `InitializeServer` (manager.go lines 57-208),
entered when the server is not already initialized: the type switch
creating the client, the transport start for the non-stdio types (note
that on a start failure the created client is not closed), then
`handshakeAndList`.  Every path of this phase stores exactly the returned
status via `setStatus`. -/
def connectPhase (cfg : MCPServer) (out : InitOutcome) (fid : Nat) :
    MCPServerStatus × List MCPAction :=
  let status0 : MCPServerStatus :=
    ⟨cfg.name, cfg.type, "disconnected", none, [], none⟩
  match cfg.type with
  | "stdio" =>
      if out.createOk = false then
        ({ status0 with
            status := "error",
            mcpError := some "failed to create stdio client" }, [])
      else
        handshakeAndList { status0 with client := some fid } out fid
          [MCPAction.createClient fid]
  | "sse" =>
      if out.createOk = false then
        ({ status0 with
            status := "error",
            mcpError := some "failed to create SSE client" }, [])
      else if out.startOk = false then
        ({ status0 with
            status := "error", client := some fid,
            mcpError := some "failed to start MCP client" },
          [MCPAction.createClient fid])
      else
        handshakeAndList { status0 with client := some fid } out fid
          [MCPAction.createClient fid, MCPAction.startClient fid]
  | "streamable_http" =>
      if out.createOk = false then
        ({ status0 with
            status := "error",
            mcpError := some "failed to create HTTP stream client" }, [])
      else if out.startOk = false then
        ({ status0 with
            status := "error", client := some fid,
            mcpError := some "failed to start MCP client" },
          [MCPAction.createClient fid])
      else
        handshakeAndList { status0 with client := some fid } out fid
          [MCPAction.createClient fid, MCPAction.startClient fid]
  | _ =>
      ({ status0 with
          status := "error",
          mcpError := some ("unsupported MCP server type: " ++ cfg.type) }, [])

/-- `Manager.InitializeServer` (manager.go lines 45-209): early-return the
existing status when it is already "initialized"; otherwise run the
connection phase and store its status.  Returns the status handed back to
the caller, the new status map, and the actions performed on the external
client. -/
def InitializeServer (cfg : MCPServer) (out : InitOutcome) (fid : Nat)
    (st : ManagerState) : MCPServerStatus × ManagerState × List MCPAction :=
  match st cfg.name with
  | some existing =>
      if existing.status = "initialized" then (existing, st, [])
      else
        let r := connectPhase cfg out fid
        (r.1, setStatus st cfg.name r.1, r.2)
  | none =>
      let r := connectPhase cfg out fid
      (r.1, setStatus st cfg.name r.1, r.2)

/-- `Manager.DisconnectServer` (manager.go lines 302-317): when the entry
exists and holds a live client, close it and clear status, client and
tools; otherwise report "server not found" and change nothing. -/
def DisconnectServer (st : ManagerState) (name : String) :
    ManagerState × Option String × List MCPAction :=
  match st name with
  | some s =>
      match s.client with
      | some cid =>
          (setStatus st name
            { s with
                status := "disconnected", client := none, tools := [],
                mcpError := some "disconnected" },
            none, [MCPAction.closeClient cid])
      | none => (st, some "server not found", [])
  | none => (st, some "server not found", [])

/-- `Manager.DisconnectAll` (manager.go lines 320-333): every entry with a
live client is closed and cleared; entries without a client are left
untouched. -/
def DisconnectAll (st : ManagerState) : ManagerState :=
  fun n =>
    match st n with
    | some s =>
        match s.client with
        | some _ =>
            some { s with
                status := "disconnected", client := none, tools := [],
                mcpError := some "disconnected" }
        | none => some s
    | none => none

/-- `Manager.ReinitializeServer` (manager.go lines 336-342): disconnect
(ignoring its error) then initialize. -/
def ReinitializeServer (cfg : MCPServer) (out : InitOutcome) (fid : Nat)
    (st : ManagerState) : MCPServerStatus × ManagerState × List MCPAction :=
  let d := DisconnectServer st cfg.name
  let r := InitializeServer cfg out fid d.1
  (r.1, r.2.1, d.2.2 ++ r.2.2)

/-- `Manager.InitializeAll` (manager.go lines 219-241), as the sequence of
per-server updates its loop performs on the status map (its lock usage is
modelled separately): skip disabled servers, initialize the rest in
order, collecting each returned status. -/
def InitializeAll : List (MCPServer × InitOutcome × Nat) → ManagerState →
    List (String × MCPServerStatus) × ManagerState
  | [], st => ([], st)
  | (cfg, out, fid) :: rest, st =>
      if cfg.enabled then
        let r := InitializeServer cfg out fid st
        let tail := InitializeAll rest r.2.1
        ((cfg.name, r.1) :: tail.1, tail.2)
      else InitializeAll rest st

/-- `Manager.GetServerClient` (manager.go lines 266-274): the stored
client handle, with ok = true, only when the entry exists and its status
is "initialized". -/
def GetServerClient (st : ManagerState) (name : String) : Option Nat × Bool :=
  match st name with
  | some s => if s.status = "initialized" then (s.client, true) else (none, false)
  | none => (none, false)

/-- `Manager.GetServerTools` (manager.go lines 277-285): the stored tool
list, with ok = true, only when the entry exists and its status is
"initialized". -/
def GetServerTools (st : ManagerState) (name : String) : List MCPTool × Bool :=
  match st name with
  | some s => if s.status = "initialized" then (s.tools, true) else ([], false)
  | none => ([], false)

/-- C7.  `InitializeServer` is idempotent on already-initialized servers:
when the status map holds an entry for the configured name whose state is
"initialized", the call returns that entry, the status map is untouched
and no action is performed on any external client (no client creation, no
transport start, no handshake, no listing). -/
theorem InitializeServer_idempotent (cfg : MCPServer) (out : InitOutcome) (fid : Nat)
    (st : ManagerState) (existing : MCPServerStatus)
    (hfound : st cfg.name = some existing) (hinit : existing.status = "initialized") :
    InitializeServer cfg out fid st = (existing, st, []) := by
  unfold InitializeServer
  rw [hfound]
  simp [hinit]

/-- A concrete status map holding one initialized server, for the C7
witness. -/
def demoInitState : ManagerState :=
  fun n =>
    if n = "files" then
      some ⟨"files", "stdio", "initialized", none, [⟨"read_file", "reads a file"⟩], some 0⟩
    else none

/-- A concrete stdio server configuration named like the entry of
`demoInitState`. -/
def demoCfg : MCPServer :=
  ⟨"files", "stdio", true, "npx", ["-y", "server-files"], [], "", [], 0⟩

/-- Witness for C7: re-initializing the already-initialized "files"
server returns the stored status and changes nothing. -/
theorem InitializeServer_idempotent_witness :
    InitializeServer demoCfg ⟨true, true, true, true, []⟩ 7 demoInitState =
      (⟨"files", "stdio", "initialized", none, [⟨"read_file", "reads a file"⟩], some 0⟩,
        demoInitState, []) :=
  InitializeServer_idempotent demoCfg ⟨true, true, true, true, []⟩ 7 demoInitState
    ⟨"files", "stdio", "initialized", none, [⟨"read_file", "reads a file"⟩], some 0⟩
    (by decide) (by decide)

/-- C10.  The accessors are gated on the "initialized" state: the ok flag
of `GetServerClient` and of `GetServerTools` is true exactly when the map
holds an entry of that name in state "initialized", and whenever the flag
is false the returned value is empty (nil client, nil tool list). -/
theorem accessor_gating (st : ManagerState) (name : String) :
    ((GetServerClient st name).2 = true ↔
      ∃ s, st name = some s ∧ s.status = "initialized") ∧
    ((GetServerTools st name).2 = true ↔
      ∃ s, st name = some s ∧ s.status = "initialized") ∧
    ((GetServerClient st name).2 = false ↔ GetServerClient st name = (none, false)) ∧
    ((GetServerTools st name).2 = false ↔ GetServerTools st name = ([], false)) := by
  unfold GetServerClient GetServerTools
  match h : st name with
  | none => simp
  | some s =>
      by_cases hs : s.status = "initialized" <;> simp [hs]

theorem DisconnectServer_none (st : ManagerState) (name : String)
    (h : st name = none) : (DisconnectServer st name).1 = st := by
  simp [DisconnectServer, h]

theorem DisconnectServer_noClient (st : ManagerState) (name : String)
    (s0 : MCPServerStatus) (h : st name = some s0) (hc : s0.client = none) :
    (DisconnectServer st name).1 = st := by
  simp [DisconnectServer, h, hc]

theorem DisconnectServer_client (st : ManagerState) (name : String)
    (s0 : MCPServerStatus) (cid : Nat) (h : st name = some s0) (hc : s0.client = some cid) :
    (DisconnectServer st name).1 =
      setStatus st name
        { s0 with
            status := "disconnected", client := none, tools := [],
            mcpError := some "disconnected" } := by
  simp [DisconnectServer, h, hc]

theorem DisconnectAll_none (st : ManagerState) (n : String) (h : st n = none) :
    DisconnectAll st n = none := by
  simp [DisconnectAll, h]

theorem DisconnectAll_noClient (st : ManagerState) (n : String) (s0 : MCPServerStatus)
    (h : st n = some s0) (hc : s0.client = none) : DisconnectAll st n = some s0 := by
  simp [DisconnectAll, h, hc]

theorem DisconnectAll_client (st : ManagerState) (n : String) (s0 : MCPServerStatus)
    (cid : Nat) (h : st n = some s0) (hc : s0.client = some cid) :
    DisconnectAll st n =
      some { s0 with
          status := "disconnected", client := none, tools := [],
          mcpError := some "disconnected" } := by
  simp [DisconnectAll, h, hc]

/-- A concrete SSE server configuration. -/
def demoSSECfg : MCPServer :=
  ⟨"web", "sse", true, "", [], [], "http://localhost:3001/sse", [], 0⟩

/-- C3, counterexample.  When the SSE transport fails to start
(`mcpClient.Start` returns an error, manager.go lines 149-158), the
status stored for the server is "error" but the single action performed
on the external client is its creation: the created client is never
closed before the call returns, so a partially-created resource is not
released on this failure path. -/
theorem InitializeServer_start_failure_not_closed :
    (InitializeServer demoSSECfg ⟨true, false, true, true, []⟩ 0 emptyManager).1.status =
        "error" ∧
      (InitializeServer demoSSECfg ⟨true, false, true, true, []⟩ 0 emptyManager).2.2 =
        [MCPAction.createClient 0] := by
  decide

/-- `InitializeServer` on a server that is not already initialized runs
the connect phase and stores its status. -/
theorem InitializeServer_run_of_not_initialized (cfg : MCPServer) (out : InitOutcome)
    (fid : Nat) (st : ManagerState)
    (h : ∀ ex, st cfg.name = some ex → ex.status ≠ "initialized") :
    InitializeServer cfg out fid st =
      ((connectPhase cfg out fid).1,
        setStatus st cfg.name (connectPhase cfg out fid).1,
        (connectPhase cfg out fid).2) := by
  unfold InitializeServer
  match hl : st cfg.name with
  | none => rfl
  | some ex => simp [h ex hl]

/-- On every failing sub-step of the connect phase — client creation,
transport start (non-stdio), handshake, tool listing — the resulting
status is "error" with a cause attached, and whenever the failure came
after the client existed and its transport was up (a handshake or
tool-listing failure), the created client is closed. -/
theorem connectPhase_failure (cfg : MCPServer) (out : InitOutcome) (fid : Nat)
    (htype : cfg.type = "stdio" ∨ cfg.type = "sse" ∨ cfg.type = "streamable_http")
    (hfail : out.createOk = false ∨ (cfg.type ≠ "stdio" ∧ out.startOk = false) ∨
      out.handshakeOk = false ∨ out.listOk = false) :
    (connectPhase cfg out fid).1.status = "error" ∧
    (connectPhase cfg out fid).1.mcpError.isSome = true ∧
    (out.createOk = true → (cfg.type = "stdio" ∨ out.startOk = true) →
      out.handshakeOk = false ∨ out.listOk = false →
      MCPAction.closeClient fid ∈ (connectPhase cfg out fid).2) := by
  obtain ⟨cOk, sOk, hOk, lOk, tl⟩ := out
  rcases htype with h | h | h <;>
    cases cOk <;> cases sOk <;> cases hOk <;> cases lOk <;>
      simp_all [connectPhase, handshakeAndList]

/-- The connect phase with every sub-step succeeding reaches
"initialized", for each supported transport type. -/
theorem connectPhase_allOk (cfg : MCPServer) (fid : Nat) (tools : List MCPTool)
    (htype : cfg.type = "stdio" ∨ cfg.type = "sse" ∨ cfg.type = "streamable_http") :
    (connectPhase cfg ⟨true, true, true, true, tools⟩ fid).1.status = "initialized" := by
  rcases htype with h | h | h <;> (unfold connectPhase; rw [h]; simp [handshakeAndList])

/-- `ReinitializeServer` unfolded into its two manager calls. -/
theorem ReinitializeServer_eq (cfg : MCPServer) (out : InitOutcome) (fid : Nat)
    (st : ManagerState) :
    ReinitializeServer cfg out fid st =
      ((InitializeServer cfg out fid (DisconnectServer st cfg.name).1).1,
        (InitializeServer cfg out fid (DisconnectServer st cfg.name).1).2.1,
        (DisconnectServer st cfg.name).2.2 ++
          (InitializeServer cfg out fid (DisconnectServer st cfg.name).1).2.2) := rfl

/-- After a failed initialization left an "error" entry, re-initializing
with parameters under which every sub-step succeeds reaches
"initialized" and stores that status. -/
theorem ReinitializeServer_after_error (cfg : MCPServer) (fid2 : Nat)
    (tools2 : List MCPTool) (st1 : ManagerState) (e : MCPServerStatus)
    (htype : cfg.type = "stdio" ∨ cfg.type = "sse" ∨ cfg.type = "streamable_http")
    (hentry : st1 cfg.name = some e) (he : e.status = "error") :
    (ReinitializeServer cfg ⟨true, true, true, true, tools2⟩ fid2 st1).1.status =
      "initialized" ∧
    (ReinitializeServer cfg ⟨true, true, true, true, tools2⟩ fid2 st1).2.1 cfg.name =
      some (ReinitializeServer cfg ⟨true, true, true, true, tools2⟩ fid2 st1).1 := by
  rw [ReinitializeServer_eq]
  match hc : e.client with
  | some cid =>
      have hd := DisconnectServer_client st1 cfg.name e cid hentry hc
      have hnot : ∀ ex, (DisconnectServer st1 cfg.name).1 cfg.name = some ex →
          ex.status ≠ "initialized" := by
        intro ex hx
        rw [hd] at hx
        simp only [setStatus, if_pos rfl] at hx
        cases hx
        simp
      rw [InitializeServer_run_of_not_initialized cfg ⟨true, true, true, true, tools2⟩ fid2
        (DisconnectServer st1 cfg.name).1 hnot]
      exact ⟨connectPhase_allOk cfg fid2 tools2 htype, by simp [setStatus]⟩
  | none =>
      have hd := DisconnectServer_noClient st1 cfg.name e hentry hc
      have hnot : ∀ ex, (DisconnectServer st1 cfg.name).1 cfg.name = some ex →
          ex.status ≠ "initialized" := by
        intro ex hx
        rw [hd, hentry] at hx
        cases hx
        rw [he]
        decide
      rw [InitializeServer_run_of_not_initialized cfg ⟨true, true, true, true, tools2⟩ fid2
        (DisconnectServer st1 cfg.name).1 hnot]
      exact ⟨connectPhase_allOk cfg fid2 tools2 htype, by simp [setStatus]⟩

/-- C3, amended.  For every supported transport type (stdio, sse,
streamable_http) and every run whose outcome fails at some sub-step —
client creation, transport start, protocol handshake or tool listing —
the stored status for the server is "error" with the failure cause
attached; whenever the failure occurred after the client existed with
its transport up (a handshake or tool-listing failure), the created
client is closed before the call returns; and a subsequent
`ReinitializeServer` with corrected parameters (every sub-step
succeeding) reaches "initialized" and stores it.  The transport-start
failure path, by contrast, is the one exhibited by the counterexample
and does not close the created client. -/
theorem InitializeServer_failure_cleanup (cfg : MCPServer) (out : InitOutcome)
    (st : ManagerState) (fid fid2 : Nat) (tools2 : List MCPTool)
    (htype : cfg.type = "stdio" ∨ cfg.type = "sse" ∨ cfg.type = "streamable_http")
    (hnotinit : ∀ ex, st cfg.name = some ex → ex.status ≠ "initialized")
    (hfail : out.createOk = false ∨ (cfg.type ≠ "stdio" ∧ out.startOk = false) ∨
      out.handshakeOk = false ∨ out.listOk = false) :
    (InitializeServer cfg out fid st).1.status = "error" ∧
    (InitializeServer cfg out fid st).1.mcpError.isSome = true ∧
    (InitializeServer cfg out fid st).2.1 cfg.name =
      some (InitializeServer cfg out fid st).1 ∧
    (out.createOk = true → (cfg.type = "stdio" ∨ out.startOk = true) →
      out.handshakeOk = false ∨ out.listOk = false →
      MCPAction.closeClient fid ∈ (InitializeServer cfg out fid st).2.2) ∧
    (ReinitializeServer cfg ⟨true, true, true, true, tools2⟩ fid2
        (InitializeServer cfg out fid st).2.1).1.status = "initialized" ∧
    (ReinitializeServer cfg ⟨true, true, true, true, tools2⟩ fid2
        (InitializeServer cfg out fid st).2.1).2.1 cfg.name =
      some (ReinitializeServer cfg ⟨true, true, true, true, tools2⟩ fid2
          (InitializeServer cfg out fid st).2.1).1 := by
  obtain ⟨herr, hsome, hclose⟩ := connectPhase_failure cfg out fid htype hfail
  have hrun := InitializeServer_run_of_not_initialized cfg out fid st hnotinit
  have hentry : (InitializeServer cfg out fid st).2.1 cfg.name =
      some (InitializeServer cfg out fid st).1 := by
    rw [hrun]
    simp [setStatus]
  have hreinit := ReinitializeServer_after_error cfg fid2 tools2
    (InitializeServer cfg out fid st).2.1 (InitializeServer cfg out fid st).1 htype hentry
    (by rw [hrun]; exact herr)
  refine ⟨by rw [hrun]; exact herr, by rw [hrun]; exact hsome, hentry,
    ?_, hreinit.1, hreinit.2⟩
  rw [hrun]
  exact hclose

/-- Witness for C3's amended theorem: the handshake of the "web" SSE
server fails on an empty manager (status "error" with cause, client
closed), then a corrected re-initialization succeeds. -/
theorem InitializeServer_failure_cleanup_witness :
    (InitializeServer demoSSECfg ⟨true, true, false, true, []⟩ 0 emptyManager).1.status =
      "error" ∧
    (InitializeServer demoSSECfg ⟨true, true, false, true, []⟩ 0
        emptyManager).1.mcpError.isSome = true ∧
    (InitializeServer demoSSECfg ⟨true, true, false, true, []⟩ 0 emptyManager).2.1
        demoSSECfg.name =
      some (InitializeServer demoSSECfg ⟨true, true, false, true, []⟩ 0 emptyManager).1 ∧
    ((true : Bool) = true → (demoSSECfg.type = "stdio" ∨ (true : Bool) = true) →
      (false : Bool) = false ∨ (true : Bool) = false →
      MCPAction.closeClient 0 ∈
        (InitializeServer demoSSECfg ⟨true, true, false, true, []⟩ 0 emptyManager).2.2) ∧
    (ReinitializeServer demoSSECfg ⟨true, true, true, true, [⟨"fetch", "fetches a URL"⟩]⟩ 1
        (InitializeServer demoSSECfg ⟨true, true, false, true, []⟩ 0
          emptyManager).2.1).1.status =
      "initialized" ∧
    (ReinitializeServer demoSSECfg ⟨true, true, true, true, [⟨"fetch", "fetches a URL"⟩]⟩ 1
        (InitializeServer demoSSECfg ⟨true, true, false, true, []⟩ 0 emptyManager).2.1).2.1
        demoSSECfg.name =
      some (ReinitializeServer demoSSECfg
          ⟨true, true, true, true, [⟨"fetch", "fetches a URL"⟩]⟩ 1
          (InitializeServer demoSSECfg ⟨true, true, false, true, []⟩ 0 emptyManager).2.1).1 :=
  InitializeServer_failure_cleanup demoSSECfg ⟨true, true, false, true, []⟩ emptyManager 0 1
    [⟨"fetch", "fetches a URL"⟩] (Or.inr (Or.inl rfl)) (fun _ h => Option.noConfusion h)
    (Or.inr (Or.inr (Or.inl rfl)))

/-- Every stored status satisfies: a non-empty tool list implies state
"initialized". -/
def ToolsInv (st : ManagerState) : Prop :=
  ∀ n s, st n = some s → s.tools ≠ [] → s.status = "initialized"

theorem handshakeAndList_tools (s : MCPServerStatus) (out : InitOutcome) (fid : Nat)
    (acts : List MCPAction) :
    (handshakeAndList s out fid acts).1.tools = s.tools ∨
      (handshakeAndList s out fid acts).1.status = "initialized" := by
  unfold handshakeAndList
  split
  · exact Or.inl rfl
  · split
    · exact Or.inl rfl
    · exact Or.inr rfl

theorem connectPhase_tools (cfg : MCPServer) (out : InitOutcome) (fid : Nat) :
    (connectPhase cfg out fid).1.tools = [] ∨
      (connectPhase cfg out fid).1.status = "initialized" := by
  unfold connectPhase
  split
  · split
    · exact Or.inl rfl
    · exact handshakeAndList_tools _ _ _ _
  · split
    · exact Or.inl rfl
    · split
      · exact Or.inl rfl
      · exact handshakeAndList_tools _ _ _ _
  · split
    · exact Or.inl rfl
    · split
      · exact Or.inl rfl
      · exact handshakeAndList_tools _ _ _ _
  · exact Or.inl rfl

theorem InitializeServer_state_cases (cfg : MCPServer) (out : InitOutcome) (fid : Nat)
    (st : ManagerState) :
    (InitializeServer cfg out fid st).2.1 = st ∨
      (InitializeServer cfg out fid st).2.1 =
        setStatus st cfg.name (connectPhase cfg out fid).1 := by
  unfold InitializeServer
  match st cfg.name with
  | some existing =>
      by_cases h : existing.status = "initialized"
      · simp [h]
      · simp [h]
  | none => simp

theorem InitializeServer_preserves_initialized (cfg : MCPServer) (out : InitOutcome)
    (fid : Nat) (st : ManagerState) (n : String) (s : MCPServerStatus)
    (h : st n = some s) (hinit : s.status = "initialized") :
    (InitializeServer cfg out fid st).2.1 n = some s := by
  by_cases hn : n = cfg.name
  · subst hn
    unfold InitializeServer
    rw [h]
    simp [hinit]
    exact h
  · rcases InitializeServer_state_cases cfg out fid st with hc | hc
    · rw [hc]; exact h
    · rw [hc]; simpa [setStatus, hn] using h

theorem InitializeAll_preserves_initialized
    (items : List (MCPServer × InitOutcome × Nat)) :
    ∀ (st : ManagerState) (n : String) (s : MCPServerStatus),
      st n = some s → s.status = "initialized" → (InitializeAll items st).2 n = some s := by
  induction items with
  | nil => intro st n s h _; exact h
  | cons item rest ih =>
      intro st n s h hinit
      obtain ⟨cfg, out, fid⟩ := item
      unfold InitializeAll
      by_cases he : cfg.enabled
      · simpa [he] using
          ih _ n s (InitializeServer_preserves_initialized cfg out fid st n s h hinit) hinit
      · simpa [he] using ih st n s h hinit

theorem toolsInv_initServer (cfg : MCPServer) (out : InitOutcome) (fid : Nat)
    (st : ManagerState) (hinv : ToolsInv st) :
    ToolsInv (InitializeServer cfg out fid st).2.1 := by
  rcases InitializeServer_state_cases cfg out fid st with hc | hc
  · rw [hc]; exact hinv
  · rw [hc]
    intro n s hn hts
    by_cases h : n = cfg.name
    · rw [setStatus, if_pos h] at hn
      cases hn
      rcases connectPhase_tools cfg out fid with ht | ht
      · exact absurd ht hts
      · exact ht
    · rw [setStatus, if_neg h] at hn
      exact hinv n s hn hts

theorem toolsInv_initAll (items : List (MCPServer × InitOutcome × Nat)) :
    ∀ st : ManagerState, ToolsInv st → ToolsInv (InitializeAll items st).2 := by
  induction items with
  | nil => intro st hinv; exact hinv
  | cons item rest ih =>
      intro st hinv
      obtain ⟨cfg, out, fid⟩ := item
      unfold InitializeAll
      by_cases he : cfg.enabled
      · simpa [he] using ih _ (toolsInv_initServer cfg out fid st hinv)
      · simpa [he] using ih st hinv

theorem toolsInv_disconnect (st : ManagerState) (name : String) (hinv : ToolsInv st) :
    ToolsInv (DisconnectServer st name).1 := by
  intro n s hn hts
  match hl : st name with
  | none =>
      rw [DisconnectServer_none st name hl] at hn
      exact hinv n s hn hts
  | some s0 =>
      match hc : s0.client with
      | none =>
          rw [DisconnectServer_noClient st name s0 hl hc] at hn
          exact hinv n s hn hts
      | some cid =>
          rw [DisconnectServer_client st name s0 cid hl hc] at hn
          simp only [setStatus] at hn
          by_cases he : n = name
          · rw [if_pos he] at hn
            cases hn
            exact absurd rfl hts
          · rw [if_neg he] at hn
            exact hinv n s hn hts

theorem toolsInv_disconnectAll (st : ManagerState) (hinv : ToolsInv st) :
    ToolsInv (DisconnectAll st) := by
  intro n s hn hts
  match hl : st n with
  | none =>
      rw [DisconnectAll_none st n hl] at hn
      cases hn
  | some s0 =>
      match hc : s0.client with
      | some cid =>
          rw [DisconnectAll_client st n s0 cid hl hc] at hn
          cases hn
          exact absurd rfl hts
      | none =>
          rw [DisconnectAll_noClient st n s0 hl hc] at hn
          cases hn
          exact hinv n _ hl hts

/-- One public mutation of the manager's status map: `InitializeServer`,
`DisconnectServer`, `DisconnectAll`, or the `InitializeAll` loop.
`ReinitializeServer` is by definition the `DisconnectServer` step followed
by the `InitializeServer` step (the manager lock is not held between the
two, so the intermediate map is observable). -/
inductive Step : ManagerState → ManagerState → Prop where
  | initServer (cfg : MCPServer) (out : InitOutcome) (fid : Nat) (st : ManagerState) :
      Step st (InitializeServer cfg out fid st).2.1
  | disconnect (st : ManagerState) (name : String) :
      Step st (DisconnectServer st name).1
  | disconnectAll (st : ManagerState) :
      Step st (DisconnectAll st)
  | initAll (items : List (MCPServer × InitOutcome × Nat)) (st : ManagerState) :
      Step st (InitializeAll items st).2

/-- A status map reachable from the fresh manager by manager operations. -/
inductive Reachable : ManagerState → Prop where
  | empty : Reachable emptyManager
  | step {st st' : ManagerState} : Reachable st → Step st st' → Reachable st'

theorem toolsInv_step {st st' : ManagerState} (hinv : ToolsInv st) (h : Step st st') :
    ToolsInv st' := by
  cases h with
  | initServer cfg out fid st => exact toolsInv_initServer cfg out fid st hinv
  | disconnect st name => exact toolsInv_disconnect st name hinv
  | disconnectAll st => exact toolsInv_disconnectAll st hinv
  | initAll items st => exact toolsInv_initAll items st hinv

theorem reachable_toolsInv {st : ManagerState} (h : Reachable st) : ToolsInv st := by
  induction h with
  | empty => intro n s hn _; cases hn
  | step _ hstep ih => exact toolsInv_step ih hstep

theorem step_clears {st st' : ManagerState} (h : Step st st') :
    ∀ n s s', st n = some s → st' n = some s' → s.status = "initialized" →
      s'.status ≠ "initialized" → s'.client = none ∧ s'.tools = [] := by
  cases h with
  | initServer cfg out fid st =>
      intro n s s' hs hs' hinit hnot
      rw [InitializeServer_preserves_initialized cfg out fid st n s hs hinit] at hs'
      cases hs'
      exact absurd hinit hnot
  | initAll items st =>
      intro n s s' hs hs' hinit hnot
      rw [InitializeAll_preserves_initialized items st n s hs hinit] at hs'
      cases hs'
      exact absurd hinit hnot
  | disconnect st name =>
      intro n s s' hs hs' hinit hnot
      match hl : st name with
      | none =>
          rw [DisconnectServer_none st name hl] at hs'
          rw [hs] at hs'
          cases hs'
          exact absurd hinit hnot
      | some s0 =>
          match hc : s0.client with
          | none =>
              rw [DisconnectServer_noClient st name s0 hl hc] at hs'
              rw [hs] at hs'
              cases hs'
              exact absurd hinit hnot
          | some cid =>
              rw [DisconnectServer_client st name s0 cid hl hc] at hs'
              simp only [setStatus] at hs'
              by_cases he : n = name
              · rw [if_pos he] at hs'
                cases hs'
                exact ⟨rfl, rfl⟩
              · rw [if_neg he] at hs'
                rw [hs] at hs'
                cases hs'
                exact absurd hinit hnot
  | disconnectAll st =>
      intro n s s' hs hs' hinit hnot
      match hc : s.client with
      | some cid =>
          rw [DisconnectAll_client st n s cid hs hc] at hs'
          cases hs'
          exact ⟨rfl, rfl⟩
      | none =>
          rw [DisconnectAll_noClient st n s hs hc] at hs'
          cases hs'
          exact absurd hinit hnot

/-- C4.  Across every manager operation: in any reachable status map the
tool list of a stored entry is non-empty only when that entry is
"initialized", and any single operation that moves an entry out of
"initialized" (only the disconnect operations do) leaves the entry with
the live client handle and the tool list cleared. -/
theorem manager_state_invariant (st st' : ManagerState) (hr : Reachable st)
    (hs : Step st st') :
    (∀ n s, st' n = some s → s.tools ≠ [] → s.status = "initialized") ∧
    (∀ n s s', st n = some s → st' n = some s' → s.status = "initialized" →
      s'.status ≠ "initialized" → s'.client = none ∧ s'.tools = []) :=
  ⟨toolsInv_step (reachable_toolsInv hr) hs, step_clears hs⟩

/-- The outcome in which every external sub-step succeeds and one tool is
advertised. -/
def demoOkOutcome : InitOutcome :=
  ⟨true, true, true, true, [⟨"read_file", "reads a file"⟩]⟩

/-- The map after initializing the "files" server on a fresh manager. -/
def demoStep1 : ManagerState :=
  (InitializeServer demoCfg demoOkOutcome 0 emptyManager).2.1

/-- The map after then disconnecting the "files" server. -/
def demoStep2 : ManagerState :=
  (DisconnectServer demoStep1 "files").1

/-- Witness for C4: initialize "files" on a fresh manager, then
disconnect it; the disconnected entry has no client handle and no
tools. -/
theorem manager_state_invariant_witness :
    (⟨"files", "stdio", "disconnected", some "disconnected", [], none⟩ :
        MCPServerStatus).client = none ∧
      (⟨"files", "stdio", "disconnected", some "disconnected", [], none⟩ :
        MCPServerStatus).tools = [] :=
  (manager_state_invariant demoStep1 demoStep2
      (Reachable.step Reachable.empty (Step.initServer demoCfg demoOkOutcome 0 emptyManager))
      (Step.disconnect demoStep1 "files")).2
    "files" ⟨"files", "stdio", "initialized", none, [⟨"read_file", "reads a file"⟩], some 0⟩
    ⟨"files", "stdio", "disconnected", some "disconnected", [], none⟩
    (by decide) (by decide) (by decide) (by decide)

/-! ## Lock discipline of the manager (manager.go, `Manager.mu`)

`Manager.mu` is a `sync.RWMutex`.  Each manager operation is embedded as
the sequence of lock events the calling goroutine performs on it, with
the slow external calls (client creation, transport start, handshake,
tool listing, close) marked as `slowOp`.  Go's `sync.RWMutex` is not
reentrant: `RLock` blocks while a writer holds the lock, and `Lock`
blocks while any reader or writer holds it, even when the holder is the
same goroutine — such an acquisition never returns. -/

/-- One event on the manager's readers-writer lock: acquire/release the
read side (`RLock`/`RUnlock`), acquire/release the write side
(`Lock`/`Unlock`), or a slow external operation performed between lock
events. -/
inductive LockEv where
  | acqR
  | relR
  | acqW
  | relW
  | slowOp
deriving DecidableEq

/-- The lock events of `Manager.InitializeServer`: the read-locked
already-initialized check (lines 49-55), then — unless it early-returns —
the slow external calls of the connect phase and the single write-locked
`setStatus` store. -/
def InitializeServerLockTrace (cfg : MCPServer) (out : InitOutcome) (fid : Nat)
    (st : ManagerState) : List LockEv :=
  match st cfg.name with
  | some existing =>
      if existing.status = "initialized" then [LockEv.acqR, LockEv.relR]
      else
        [LockEv.acqR, LockEv.relR] ++
          (connectPhase cfg out fid).2.map (fun _ => LockEv.slowOp) ++
          [LockEv.acqW, LockEv.relW]
  | none =>
      [LockEv.acqR, LockEv.relR] ++
        (connectPhase cfg out fid).2.map (fun _ => LockEv.slowOp) ++
        [LockEv.acqW, LockEv.relW]

/-- The lock events of the loop body of `Manager.InitializeAll` (lines
225-238): each enabled server's `InitializeServer` runs in order, the
status map evolving as its updates are applied. -/
def initAllLoopLockTrace : List (MCPServer × InitOutcome × Nat) → ManagerState → List LockEv
  | [], _ => []
  | (cfg, out, fid) :: rest, st =>
      if cfg.enabled then
        InitializeServerLockTrace cfg out fid st ++
          initAllLoopLockTrace rest (InitializeServer cfg out fid st).2.1
      else initAllLoopLockTrace rest st

/-- The lock events of `Manager.InitializeAll` (lines 219-241): `m.mu.Lock()`
on entry, the whole loop, and the deferred `m.mu.Unlock()`. -/
def InitializeAllLockTrace (items : List (MCPServer × InitOutcome × Nat))
    (st : ManagerState) : List LockEv :=
  [LockEv.acqW] ++ initAllLoopLockTrace items st ++ [LockEv.relW]

/-- Run a lock-event trace of a single goroutine against Go's
non-reentrant `sync.RWMutex`: `true` when some acquisition blocks forever
(the goroutine itself already holds the lock in a conflicting mode). -/
def blocksSelf : Bool → Nat → List LockEv → Bool
  | _, _, [] => false
  | w, r, LockEv.acqW :: rest => if w || decide (0 < r) then true else blocksSelf true r rest
  | _, r, LockEv.relW :: rest => blocksSelf false r rest
  | w, r, LockEv.acqR :: rest => if w then true else blocksSelf w (r + 1) rest
  | w, r, LockEv.relR :: rest => blocksSelf w (r - 1) rest
  | w, r, LockEv.slowOp :: rest => blocksSelf w r rest

/-- A trace deadlocks when, starting with the lock free, some acquisition
in it blocks the goroutine forever. -/
def Deadlocks (t : List LockEv) : Bool := blocksSelf false 0 t

/-- C2.  `Manager.InitializeAll` acquires the write lock and holds it
across the `InitializeServer` calls of its loop, so with even a single
enabled server the bulk path self-deadlocks on the first read-lock
acquisition inside `InitializeServer` (and readers are blocked from the
moment the write lock is taken); a standalone `InitializeServer` call, by
contrast, performs its slow operations outside any held lock and
completes. -/
theorem InitializeAll_holds_lock_and_deadlocks :
    Deadlocks (InitializeAllLockTrace
        [(demoSSECfg, ⟨true, true, true, true, []⟩, 0)] emptyManager) = true ∧
      Deadlocks (InitializeServerLockTrace demoSSECfg ⟨true, true, true, true, []⟩ 0
        emptyManager) = false := by
  decide

/-! ## Built-in tool configuration, src/internal/config/config.go -/

/-- `config.BuiltinTool`: name, type, enabled flag and the string-keyed
config map (embedded as an association list with the unique keys a Go map
guarantees). -/
structure BuiltinTool where
  name : String
  type : String
  enabled : Bool
  config : List (String × String)
deriving DecidableEq

/-- `config.GetRequiredConfigFields` (config.go lines 119-140): the
required fields per built-in tool type. -/
def GetRequiredConfigFields (toolType : String) : List String :=
  match toolType with
  | "bingsearch" => ["api_key"]
  | "googlesearch" => ["api_key", "search_engine_id"]
  | "wikipedia" => []
  | "duckduckgosearch" => []
  | "httprequest" => []
  | "browseruse" => []
  | "commandline" => ["allowed_commands"]
  | "sequentialthinking" => []
  | _ => []

/-- Go's `unicode.IsSpace`: the Latin-1 white space characters and the
Unicode White_Space code points above U+00FF. -/
def goIsSpace (c : Char) : Bool :=
  c.val = 9 || c.val = 10 || c.val = 11 || c.val = 12 || c.val = 13 || c.val = 32 ||
    c.val = 0x85 || c.val = 0xA0 || c.val = 0x1680 ||
    (0x2000 ≤ c.val && c.val ≤ 0x200A) ||
    c.val = 0x2028 || c.val = 0x2029 || c.val = 0x202F || c.val = 0x205F || c.val = 0x3000

/-- Go's `strings.TrimSpace`: drop leading and trailing white space. -/
def goTrimSpace (s : String) : String :=
  String.mk (((s.toList.dropWhile goIsSpace).reverse.dropWhile goIsSpace).reverse)

/-- The per-field test of `ValidateBuiltinToolConfig` (config.go lines
147-148): the field is absent from the config map, or its value is blank
after trimming white space. -/
def fieldMissing (config : List (String × String)) (field : String) : Bool :=
  match config.lookup field with
  | none => true
  | some v => goTrimSpace v = ""

/-- The error message `ValidateBuiltinToolConfig` formats for a missing
required field (config.go line 149). -/
def requiredFieldErr (field toolName : String) : String :=
  "required field \x27" ++ field ++ "\x27 is missing for tool \x27" ++ toolName ++ "\x27"

/-- The loop of `ValidateBuiltinToolConfig` over the required fields:
return the error for the first missing one, `none` when every required
field is present and non-blank. -/
def validateFields (config : List (String × String)) (toolName : String) :
    List String → Option String
  | [] => none
  | field :: rest =>
      if fieldMissing config field then some (requiredFieldErr field toolName)
      else validateFields config toolName rest

/-- `config.ValidateBuiltinToolConfig` (config.go lines 143-154). -/
def ValidateBuiltinToolConfig (tool : BuiltinTool) : Option String :=
  validateFields tool.config tool.name (GetRequiredConfigFields tool.type)

theorem validateFields_spec (config : List (String × String)) (toolName : String) :
    ∀ fields : List String,
      ((validateFields config toolName fields).isSome = true ↔
        ∃ f ∈ fields, fieldMissing config f = true) ∧
      ∀ msg, validateFields config toolName fields = some msg →
        ∃ f ∈ fields, fieldMissing config f = true ∧ msg = requiredFieldErr f toolName := by
  intro fields
  induction fields with
  | nil => simp [validateFields]
  | cons field rest ih =>
      by_cases hf : fieldMissing config field
      · constructor
        · simp [validateFields, hf]
        · intro msg hmsg
          rw [validateFields, if_pos hf] at hmsg
          exact ⟨field, by simp, hf, (Option.some.injEq .. ▸ hmsg).symm⟩
      · have hf' : fieldMissing config field = false := by
          simpa using hf
        constructor
        · rw [validateFields, if_neg hf]
          rw [ih.1]
          simp [hf']
        · intro msg hmsg
          rw [validateFields, if_neg hf] at hmsg
          obtain ⟨f, hfm, hmiss, heq⟩ := ih.2 msg hmsg
          exact ⟨f, by simp [hfm], hmiss, heq⟩

/-- C9.  `ValidateBuiltinToolConfig` fails exactly when some field
required for the tool's type is absent from the config map or blank after
trimming white space, and the returned error message names that missing
field (and the tool). -/
theorem ValidateBuiltinToolConfig_iff (tool : BuiltinTool) :
    ((ValidateBuiltinToolConfig tool).isSome = true ↔
      ∃ f ∈ GetRequiredConfigFields tool.type, fieldMissing tool.config f = true) ∧
    ∀ msg, ValidateBuiltinToolConfig tool = some msg →
      ∃ f ∈ GetRequiredConfigFields tool.type,
        fieldMissing tool.config f = true ∧ msg = requiredFieldErr f tool.name :=
  validateFields_spec tool.config tool.name (GetRequiredConfigFields tool.type)

/-- A bingsearch tool whose required `api_key` is blank. -/
def demoBing : BuiltinTool :=
  ⟨"bingsearch", "bingsearch", true, [("api_key", "  ")]⟩

/-- Witness for C9: validating the blank-keyed bingsearch tool fails and
the message names the `api_key` field. -/
theorem ValidateBuiltinToolConfig_iff_witness :
    ∃ f ∈ GetRequiredConfigFields demoBing.type,
      fieldMissing demoBing.config f = true ∧
        requiredFieldErr "api_key" "bingsearch" = requiredFieldErr f demoBing.name :=
  (ValidateBuiltinToolConfig_iff demoBing).2
    (requiredFieldErr "api_key" "bingsearch") (by decide)

/-! ## Conversation persistence, src/pkg/models/conversation.go -/

/-- `models.Message`: one turn of a conversation; the `time.Time`
timestamp is embedded as a number. -/
structure Message where
  id : String
  role : String
  content : String
  timestamp : Nat
deriving DecidableEq

/-- `models.Conversation`: the persisted record of one conversation. -/
structure Conversation where
  id : String
  title : String
  messages : List Message
  createdAt : Nat
  updatedAt : Nat
  provider : String
  model : String
deriving DecidableEq

/-- The conversation directory `~/.chatgo/conversations`: one JSON file
per conversation id.  The struct is a flat record, so `json.Marshal`
followed by `json.Unmarshal` reproduces it; serialization is therefore
embedded as the identity and the store maps each id directly to the
stored record. -/
def ConversationStore : Type := String → Option Conversation

/-- `ConversationManager.LoadConversation` (conversation.go lines 79-91):
read and decode the file `id`.json. -/
def LoadConversation (store : ConversationStore) (id : String) : Option Conversation :=
  store id

/-- `ConversationManager.SaveConversation` (conversation.go lines
94-103): refresh `UpdatedAt` to the present time, then write the record
to `conv.ID`.json.  Returns the new store and the mutated record. -/
def SaveConversation (store : ConversationStore) (conv : Conversation) (now : Nat) :
    ConversationStore × Conversation :=
  let conv' := { conv with updatedAt := now }
  (fun k => if k = conv'.id then some conv' else store k, conv')

/-- C6.  Reloading a persisted conversation and saving it again leaves
the stored record identical except for the updated-timestamp: messages
(contents, roles, order), id, title, provider, model and the creation
timestamp all round-trip unchanged, and `updatedAt` becomes the save
time. -/
theorem save_load_roundtrip (store : ConversationStore) (id : String)
    (conv : Conversation) (now : Nat) (_hload : LoadConversation store id = some conv)
    (hid : conv.id = id) :
    (SaveConversation store conv now).1 id = some { conv with updatedAt := now } ∧
    ({ conv with updatedAt := now } : Conversation).messages = conv.messages ∧
    ({ conv with updatedAt := now } : Conversation).id = conv.id ∧
    ({ conv with updatedAt := now } : Conversation).title = conv.title ∧
    ({ conv with updatedAt := now } : Conversation).provider = conv.provider ∧
    ({ conv with updatedAt := now } : Conversation).model = conv.model ∧
    ({ conv with updatedAt := now } : Conversation).createdAt = conv.createdAt ∧
    ({ conv with updatedAt := now } : Conversation).updatedAt = now := by
  refine ⟨?_, rfl, rfl, rfl, rfl, rfl, rfl, rfl⟩
  simp [SaveConversation, hid]

/-- A concrete stored conversation for the C6 witness. -/
def demoConv : Conversation :=
  ⟨"20240101120000", "hello world", [⟨"m1", "user", "hi", 5⟩, ⟨"m2", "assistant", "hello", 6⟩],
    5, 6, "OpenAI", "gpt-4"⟩

/-- A store holding exactly `demoConv` under its id. -/
def demoStore : ConversationStore :=
  fun k => if k = "20240101120000" then some demoConv else none

/-- Witness for C6: loading and re-saving `demoConv` at time 42 stores it
back unchanged except for the updated-timestamp. -/
theorem save_load_roundtrip_witness :
    (SaveConversation demoStore demoConv 42).1 "20240101120000" =
      some { demoConv with updatedAt := 42 } ∧
    ({ demoConv with updatedAt := 42 } : Conversation).messages = demoConv.messages ∧
    ({ demoConv with updatedAt := 42 } : Conversation).id = demoConv.id ∧
    ({ demoConv with updatedAt := 42 } : Conversation).title = demoConv.title ∧
    ({ demoConv with updatedAt := 42 } : Conversation).provider = demoConv.provider ∧
    ({ demoConv with updatedAt := 42 } : Conversation).model = demoConv.model ∧
    ({ demoConv with updatedAt := 42 } : Conversation).createdAt = demoConv.createdAt ∧
    ({ demoConv with updatedAt := 42 } : Conversation).updatedAt = 42 :=
  save_load_roundtrip demoStore "20240101120000" demoConv 42 (by decide) (by decide)

/-! ## React agent client (source quoted in src/README.md) -/

/-- `config.Provider`: one model backend configuration. -/
structure Provider where
  name : String
  type : String
  apiKey : String
  baseURL : String
  model : String
  enabled : Bool
deriving DecidableEq

/-- A constructive side effect of the react client constructors: creating
the base chat model client (`NewClient`), or creating the react agent
(`react.NewAgent` via `createReactClientWithTools`). -/
inductive ReactAction where
  | createBaseClient
  | createAgent
deriving DecidableEq

/-- `NewReactClient` (README react source): create the base client, probe
whether the model satisfies the `model.ToolCallingChatModel` interface
(the tool-calling capability of the external SDK, embedded as the
`supportsTC` flag), and only then build the react agent.  The result
stands for the returned `(*ReactClient, error)`, paired with the trace of
constructive effects. -/
def NewReactClient (p : Provider) (baseOk supportsTC agentOk : Bool) :
    Except String Unit × List ReactAction :=
  if baseOk = false then (Except.error "failed to create base client", [])
  else if supportsTC = false then
    (Except.error ("model " ++ p.type ++ " does not support tool calling"),
      [ReactAction.createBaseClient])
  else if agentOk = false then
    (Except.error "failed to create react agent", [ReactAction.createBaseClient])
  else (Except.ok (), [ReactAction.createBaseClient, ReactAction.createAgent])

/-- `NewReactClientWithEinoTools` (README react source): identical
control flow to `NewReactClient`, with pre-built tools. -/
def NewReactClientWithEinoTools (p : Provider) (baseOk supportsTC agentOk : Bool) :
    Except String Unit × List ReactAction :=
  if baseOk = false then (Except.error "failed to create base client", [])
  else if supportsTC = false then
    (Except.error ("model " ++ p.type ++ " does not support tool calling"),
      [ReactAction.createBaseClient])
  else if agentOk = false then
    (Except.error "failed to create react agent", [ReactAction.createBaseClient])
  else (Except.ok (), [ReactAction.createBaseClient, ReactAction.createAgent])

/-- C8.  When the provider's chat model does not satisfy the tool-calling
interface, both react client constructors fail fast with the
configuration error naming the unsupported model type, and the only
constructive effect is the base client: no react agent is ever created,
so no agent run can be attempted against that backend. -/
theorem NewReactClient_fails_fast (p : Provider) (agentOk : Bool) :
    (NewReactClient p true false agentOk).1 =
        Except.error ("model " ++ p.type ++ " does not support tool calling") ∧
      (NewReactClient p true false agentOk).2 = [ReactAction.createBaseClient] ∧
      (NewReactClientWithEinoTools p true false agentOk).1 =
        Except.error ("model " ++ p.type ++ " does not support tool calling") ∧
      (NewReactClientWithEinoTools p true false agentOk).2 =
        [ReactAction.createBaseClient] := by
  refine ⟨?_, ?_, ?_, ?_⟩ <;> simp [NewReactClient, NewReactClientWithEinoTools]

/-! ## The bounded react loop (C1)

The `Thinking → ToolDispatch` loop itself is implemented by the external
eino framework (`react.NewAgent`); the repository only forwards
`ReactAgentConfig.MaxStep` into the agent configuration
(`createReactClientWithTools`) and wraps the agent's output in a
`ChatResponse`. -/

/-- Modelled from the spec: one completed model response of the react
loop — its content and the tool calls it requests (the loop dispatches
tools and loops when this list is non-empty). -/
structure ModelTurn where
  content : String
  toolCalls : List String
deriving DecidableEq

/-- Modelled from the spec: the outcome of one agent run — the
accumulated content, the number of Thinking-to-ToolDispatch cycles
performed, and whether the run was cut off by the step bound. -/
structure AgentResult where
  content : String
  cycles : Nat
  truncated : Bool
deriving DecidableEq

/-- Modelled from the spec: the bounded react loop (spec section 4.3,
implemented by the external eino framework, absent from this
repository).  Each `Thinking` invokes the backend; a response without
tool calls finishes the run, a response with tool calls dispatches them
and loops, and when the step budget is exhausted the loop forces a
truncated Done with whatever content has accumulated. -/
def runReactLoop (backend : Nat → ModelTurn) : Nat → Nat → String → AgentResult
  | idx, 0, acc => ⟨acc, idx, true⟩
  | idx, fuel + 1, acc =>
      let t := backend idx
      if t.toolCalls.isEmpty then ⟨acc ++ t.content, idx, false⟩
      else runReactLoop backend (idx + 1) fuel (acc ++ t.content)

/-- Modelled from the spec: a full agent run with step bound `maxStep`. -/
def runAgent (maxStep : Nat) (backend : Nat → ModelTurn) : AgentResult :=
  runReactLoop backend 0 maxStep ""

/-- `ReactClient.chatWithoutStream` (README react source): the agent's
final content is wrapped in `ChatResponse{Content: ..., Done: true}` —
the response carries no other information about the run. -/
def ReactChatResponse (r : AgentResult) : ChatResponse :=
  ⟨r.content, true⟩

theorem runReactLoop_cycles (backend : Nat → ModelTurn) :
    ∀ (fuel idx : Nat) (acc : String),
      (runReactLoop backend idx fuel acc).cycles ≤ idx + fuel ∧
        ((runReactLoop backend idx fuel acc).truncated = false ∨
          (runReactLoop backend idx fuel acc).cycles = idx + fuel) := by
  intro fuel
  induction fuel with
  | zero => intro idx acc; exact ⟨Nat.le_refl _, Or.inr rfl⟩
  | succ fuel ih =>
      intro idx acc
      rw [runReactLoop]
      cases ht : (backend idx).toolCalls.isEmpty
      · rw [if_neg (by simp [ht])]
        obtain ⟨h1, h2⟩ := ih (idx + 1) (acc ++ (backend idx).content)
        refine ⟨by omega, ?_⟩
        rcases h2 with h2 | h2
        · exact Or.inl h2
        · exact Or.inr (by omega)
      · rw [if_pos (by simp [ht])]
        exact ⟨Nat.le_add_right idx (fuel + 1), Or.inl rfl⟩

/-- C1, amended.  Every agent run performs at most `maxStep`
Thinking-to-ToolDispatch cycles, a run the bound cuts off has performed
exactly `maxStep` of them (so it terminated in a truncated Done rather
than looping), and the `ChatResponse` handed to the caller always has
`Done = true` — it carries no truncation flag. -/
theorem runAgent_bounded (maxStep : Nat) (backend : Nat → ModelTurn) :
    (runAgent maxStep backend).cycles ≤ maxStep ∧
    ((runAgent maxStep backend).truncated = false ∨
      (runAgent maxStep backend).cycles = maxStep) ∧
    (ReactChatResponse (runAgent maxStep backend)).done = true := by
  obtain ⟨h1, h2⟩ := runReactLoop_cycles backend maxStep 0 ""
  exact ⟨by simpa using h1, by simpa using h2, rfl⟩

/-- A backend that requests a tool call on every response. -/
def loopingBackend : Nat → ModelTurn := fun _ => ⟨"x", ["search"]⟩

/-- A backend that answers immediately without tool calls. -/
def directBackend : Nat → ModelTurn := fun _ => ⟨"x", []⟩

/-- C1, counterexample.  A run truncated by the step bound (`maxStep = 1`
against a backend that always requests tools) and an untruncated run
produce byte-identical `ChatResponse` values — `Done` is `true` and there
is no truncation flag or terminal note on the returned response, so the
caller is not informed of the truncation. -/
theorem ReactChatResponse_no_truncation_flag :
    (runAgent 1 loopingBackend).truncated = true ∧
      (runAgent 1 directBackend).truncated = false ∧
      ReactChatResponse (runAgent 1 loopingBackend) =
        ReactChatResponse (runAgent 1 directBackend) := by
  decide

end ChatGo
